import Mathlib

/-!
Verification of the cloud-on-k8s operator fragment and of its specified
certificate/supervision core.

Part 1 embeds `operators/pkg/controller/kibana/pod/pod.go` (the Kibana pod
construction helpers) as Lean functions over shallow models of the
Kubernetes core/v1 types.  Part 2 models the certificate-authority manager,
certificate issuer, instance certificate agent, process supervisor and
startup configuration validation from the specification (their code is not
part of the visible source fragment).
-/

namespace pod

/-- Selector of a key of a Secret (`corev1.SecretKeySelector`): only the
secret name and the key are relevant to the embedded code. -/
structure SecretKeySelector where
  name : String
  key : String
deriving DecidableEq, Repr

/-- Source for the value of an EnvVar (`corev1.EnvVarSource`); the embedded
code only ever sets its `SecretKeyRef` field. -/
structure EnvVarSource where
  secretKeyRef : Option SecretKeySelector
deriving DecidableEq, Repr

/-- An environment variable of a container (`corev1.EnvVar`). -/
structure EnvVar where
  name : String
  value : String := ""
  valueFrom : Option EnvVarSource := none
deriving DecidableEq, Repr

/-- Inline Elasticsearch credentials
(`v1alpha1.ElasticsearchInlineAuth`). -/
structure ElasticsearchInlineAuth where
  username : String
  password : String
deriving DecidableEq, Repr

/-- Elasticsearch authentication settings (`v1alpha1.ElasticsearchAuth`):
either inline credentials, a secret key reference, both or neither; Go nil
pointers become `none`. -/
structure ElasticsearchAuth where
  inline : Option ElasticsearchInlineAuth
  secretKeyRef : Option SecretKeySelector
deriving DecidableEq, Repr

/-- A quantity of a resource (`resource.Quantity`), kept as its literal
string form: the embedded code never inspects it. -/
abbrev Quantity := String

/-- `corev1.ResourceList`: a map from resource names to quantities,
modelled as an association list.  The embedded code only tests emptiness. -/
abbrev ResourceList := List (String × Quantity)

/-- `corev1.ResourceRequirements`: limits and requests.  Go nil maps and
empty maps both have length zero and are modelled as `[]`. -/
structure ResourceRequirements where
  limits : ResourceList := []
  requests : ResourceList := []
deriving DecidableEq, Repr

/-- `corev1.HTTPGetAction` as used by the readiness probe. -/
structure HTTPGetAction where
  port : Int
  path : String
  scheme : String
deriving DecidableEq, Repr

/-- `corev1.Handler`: the embedded code only uses the HTTPGet variant. -/
structure Handler where
  httpGet : Option HTTPGetAction
deriving DecidableEq, Repr

/-- `corev1.Probe` with the fields the embedded code sets. -/
structure Probe where
  failureThreshold : Int
  initialDelaySeconds : Int
  periodSeconds : Int
  successThreshold : Int
  timeoutSeconds : Int
  handler : Handler
deriving DecidableEq, Repr

/-- `corev1.ContainerPort` with the fields the embedded code sets. -/
structure ContainerPort where
  name : String
  containerPort : Int
  protocol : String
deriving DecidableEq, Repr

/-- Pod affinity settings (`corev1.Affinity`): passed through unexamined by
the embedded code, so its contents are not modelled. -/
structure Affinity where
deriving DecidableEq, Repr

/-- `corev1.Container` with the fields the embedded code reads or sets. -/
structure Container where
  name : String := ""
  image : String := ""
  env : List EnvVar := []
  resources : ResourceRequirements := {}
  ports : List ContainerPort := []
  readinessProbe : Option Probe := none
deriving DecidableEq, Repr

/-- `corev1.PodSpec` with the fields the embedded code reads or sets. -/
structure PodSpec where
  affinity : Option Affinity := none
  containers : List Container := []
  automountServiceAccountToken : Option Bool := none
deriving DecidableEq, Repr

/-- `corev1.PodTemplateSpec` (metadata is irrelevant to the embedded
code). -/
structure PodTemplateSpec where
  spec : PodSpec := {}
deriving DecidableEq, Repr

/-- `HTTPPort`: the (default) port used by Kibana. -/
def HTTPPort : Int := 5601

/-- The constant `elasticsearchUsername` of pod.go. -/
def elasticsearchUsername : String := "ELASTICSEARCH_USERNAME"

/-- The constant `elasticsearchPassword` of pod.go. -/
def elasticsearchPassword : String := "ELASTICSEARCH_PASSWORD"

/-- The constant `defaultImageRepositoryAndName` of pod.go. -/
def defaultImageRepositoryAndName : String := "docker.elastic.co/kibana/kibana"

/-- `v1alpha1.KibanaContainerName`, from the Kibana API package (outside
the visible fragment); only its identity matters to the embedded code. -/
def KibanaContainerName : String := "kibana"

/-- `DefaultResources`: resource limits to apply to the Kibana container by
default — a 1Gi memory limit and no requests. -/
def DefaultResources : ResourceRequirements :=
  { limits := [("memory", "1Gi")], requests := [] }

/-- `ApplyToEnv` of pod.go: appends username/password variables for the
inline credentials when present, then username/secret-sourced password
variables for the secret key reference when present. -/
def ApplyToEnv (auth : ElasticsearchAuth) (env : List EnvVar) : List EnvVar :=
  let env1 :=
    match auth.inline with
    | some a =>
        env ++ [{ name := elasticsearchUsername, value := a.username },
                { name := elasticsearchPassword, value := a.password }]
    | none => env
  match auth.secretKeyRef with
  | some r =>
      env1 ++ [{ name := elasticsearchUsername, value := r.key },
               { name := elasticsearchPassword,
                 valueFrom := some { secretKeyRef := some r } }]
  | none => env1

/-- `SpecParams` of pod.go. -/
structure SpecParams where
  version : String
  elasticsearchUrl : String
  customImageName : String
  user : ElasticsearchAuth
  podTemplate : PodTemplateSpec
deriving DecidableEq, Repr

/-- `imageWithVersion` of pod.go: `stringsutil.Concat(image, ":", version)`
is plain string concatenation. -/
def imageWithVersion (image : String) (version : String) : String :=
  image ++ ":" ++ version

/-- `EnvFactory` of pod.go. -/
def EnvFactory := SpecParams → List EnvVar

/-- `resourceRequirements` of pod.go: the resources of the first container
named `KibanaContainerName` with a non-empty limits or requests map, else
`DefaultResources`. -/
def resourceRequirements (podTemplate : PodTemplateSpec) : ResourceRequirements :=
  match podTemplate.spec.containers.find? (fun c =>
      c.name = KibanaContainerName
        && (0 < c.resources.limits.length || 0 < c.resources.requests.length)) with
  | some c => c.resources
  | none => DefaultResources

/-- `NewSpec` of pod.go. -/
def NewSpec (p : SpecParams) (env : EnvFactory) : PodSpec :=
  let imageName :=
    if p.customImageName = "" then
      imageWithVersion defaultImageRepositoryAndName p.version
    else p.customImageName
  let probe : Probe :=
    { failureThreshold := 3
      initialDelaySeconds := 10
      periodSeconds := 10
      successThreshold := 1
      timeoutSeconds := 5
      handler := { httpGet := some { port := HTTPPort, path := "/", scheme := "HTTP" } } }
  { affinity := p.podTemplate.spec.affinity
    containers := [{
      resources := resourceRequirements p.podTemplate
      env := env p
      image := imageName
      name := KibanaContainerName
      ports := [{ name := "http", containerPort := HTTPPort, protocol := "TCP" }]
      readinessProbe := some probe }]
    automountServiceAccountToken := some false }

end pod

/-- Claim C8: for every auth value and input env list, `ApplyToEnv` returns
the input env unchanged as an initial segment, followed by exactly two
appended ELASTICSEARCH_USERNAME/ELASTICSEARCH_PASSWORD variables for each
of `auth.inline` and `auth.secretKeyRef` that is present (zero, two or four
appended entries); when both are absent the input list is returned
unchanged. -/
theorem pod.C8_ApplyToEnv_appends (auth : ElasticsearchAuth) (env : List EnvVar) :
    (ApplyToEnv auth env).take env.length = env ∧
    (ApplyToEnv auth env).length =
      env.length + (if auth.inline.isSome then 2 else 0)
        + (if auth.secretKeyRef.isSome then 2 else 0) ∧
    ((ApplyToEnv auth env).drop env.length).map EnvVar.name =
      (if auth.inline.isSome then [elasticsearchUsername, elasticsearchPassword] else [])
        ++ (if auth.secretKeyRef.isSome then [elasticsearchUsername, elasticsearchPassword] else []) ∧
    (auth.inline = none → auth.secretKeyRef = none → ApplyToEnv auth env = env) := by
  obtain ⟨oi, os⟩ := auth
  cases oi <;> cases os <;>
    simp [ApplyToEnv, List.take_append, List.drop_append, List.append_assoc]

/-- Claim C9: the pod spec built by `NewSpec` has a single container whose
image is `p.customImageName` when that is non-empty, and otherwise the
default repository name "docker.elastic.co/kibana/kibana" concatenated
with ":" and `p.version`. -/
theorem pod.C9_NewSpec_image (p : SpecParams) (env : EnvFactory) :
    (NewSpec p env).containers.length = 1 ∧
    ∀ c ∈ (NewSpec p env).containers,
      c.image = if p.customImageName = "" then
          "docker.elastic.co/kibana/kibana" ++ ":" ++ p.version
        else p.customImageName := by
  refine ⟨rfl, ?_⟩
  intro c hc
  simp only [NewSpec, List.mem_singleton] at hc
  subst hc
  by_cases h : p.customImageName = "" <;>
    simp [h, imageWithVersion, defaultImageRepositoryAndName]

namespace core

/-- Modelled from the spec: the configuration consumed read-only by the
core (spec 6): CA validity duration, rotate-before threshold, maximum leaf
validity, restart grace period and retry backoff bounds, all durations as
integer time units. -/
structure Config where
  caValidity : Int
  rotateBefore : Int
  maxLeafValidity : Int
  restartGrace : Int
  backoffMin : Int
  backoffMax : Int
deriving DecidableEq, Repr

/-- Modelled from the spec: the `ConfigError` entry of the error taxonomy
(spec 7), fatal at startup. -/
inductive ConfigError where
  | nonPositiveDuration (which : String)
  | rotateBeforeNotBelowValidity
deriving DecidableEq, Repr

/-- Modelled from the spec: startup configuration validation (spec 6):
zero/negative durations or a rotate-before threshold at or above the CA
validity are a fatal configuration error. -/
def validateConfig (c : Config) : Except ConfigError Unit :=
  if c.caValidity ≤ 0 then .error (.nonPositiveDuration "caValidity")
  else if c.rotateBefore ≤ 0 then .error (.nonPositiveDuration "rotateBefore")
  else if c.maxLeafValidity ≤ 0 then .error (.nonPositiveDuration "maxLeafValidity")
  else if c.restartGrace ≤ 0 then .error (.nonPositiveDuration "restartGracePeriod")
  else if c.backoffMin ≤ 0 then .error (.nonPositiveDuration "retryBackoffMin")
  else if c.backoffMax ≤ 0 then .error (.nonPositiveDuration "retryBackoffMax")
  else if c.caValidity ≤ c.rotateBefore then .error .rotateBeforeNotBelowValidity
  else .ok ()

/-- Modelled from the spec: ClusterCA (spec 3).  The private key never
leaves the Issuer's trust boundary and is abstracted to the certificate
identity (its fingerprint); the rotate-before duration lives in the
configuration. -/
structure ClusterCA where
  fingerprint : Nat
  notBefore : Int
  notAfter : Int
deriving DecidableEq, Repr

/-- Modelled from the spec: LeafCertificate (spec 3). -/
structure LeafCertificate where
  subjectID : String
  sans : List String
  notBefore : Int
  notAfter : Int
  serial : Nat
  signingCAFingerprint : Nat
deriving DecidableEq, Repr

/-- Modelled from the spec: the CA Manager / Issuer state: the current CA,
the previous CAs still honored, the serial counter and the leaf
certificates issued so far, newest first (the newest entry for a subject
is the Issuer's cache for that subject). -/
structure CAState where
  current : ClusterCA
  previous : List ClusterCA
  nextSerial : Nat
  leaves : List LeafCertificate
deriving DecidableEq, Repr

/-- Modelled from the spec: TrustBundle (spec 3): the ordered set of CA
certificates currently honored — current plus any unexpired previous. -/
def trustBundle (s : CAState) : List ClusterCA :=
  s.current :: s.previous

/-- Modelled from the spec: rotation is due when
`now + rotateBeforeDuration >= notAfter` (spec 3). -/
def rotationDue (cfg : Config) (now : Int) (s : CAState) : Bool :=
  s.current.notAfter ≤ now + cfg.rotateBefore

/-- Modelled from the spec: `RotateIfNeeded(now)` (spec 4.1): when rotation
is due, mints a new CA with the configured validity, appends the retiring
CA to the trust bundle as previous and returns that rotation occurred;
otherwise a no-op.  Concurrent invocation is gated so each call is one
atomic step over the shared state. -/
def RotateIfNeeded (cfg : Config) (now : Int) (s : CAState) : CAState × Bool :=
  if rotationDue cfg now s then
    ({ s with
        current := { fingerprint := s.current.fingerprint + 1,
                     notBefore := now, notAfter := now + cfg.caValidity }
        previous := s.current :: s.previous }, true)
  else (s, false)

/-- N gated invocations of `RotateIfNeeded` at one due instant, in the
order the gate serializes them; each entry is the state that call observes
on return and whether that call committed a rotation. -/
def rotateCalls (cfg : Config) (now : Int) : CAState → Nat → List (CAState × Bool)
  | _, 0 => []
  | s, n+1 =>
    let r := RotateIfNeeded cfg now s
    r :: rotateCalls cfg now r.1 n

/-- The Issuer's cache lookup: the most recently issued certificate for
the subject. -/
def cached (s : CAState) (subjectID : String) : Option LeafCertificate :=
  s.leaves.find? (fun l => l.subjectID = subjectID)

/-- Minting a fresh leaf certificate against the current CA: validity is
the requested one capped at the configured maximum, the serial is fresh. -/
def mintLeaf (cfg : Config) (now : Int) (subjectID : String) (sans : List String)
    (requestedValidity : Int) (s : CAState) : CAState × LeafCertificate :=
  let cert : LeafCertificate :=
    { subjectID := subjectID, sans := sans, notBefore := now,
      notAfter := now + min requestedValidity cfg.maxLeafValidity,
      serial := s.nextSerial, signingCAFingerprint := s.current.fingerprint }
  ({ s with nextSerial := s.nextSerial + 1, leaves := cert :: s.leaves }, cert)

/-- Modelled from the spec: `Sign(subjectID, SANs, requestedValidity)`
(spec 4.2): a still-valid, SAN-identical cached certificate is returned
unchanged on re-request; otherwise a new certificate is minted against the
current CA, its validity capped at the configured maximum. -/
def Sign (cfg : Config) (now : Int) (subjectID : String) (sans : List String)
    (requestedValidity : Int) (s : CAState) : CAState × LeafCertificate :=
  match cached s subjectID with
  | some l =>
      if now < l.notAfter ∧ l.sans = sans then (s, l)
      else mintLeaf cfg now subjectID sans requestedValidity s
  | none => mintLeaf cfg now subjectID sans requestedValidity s

/-- True when the Issuer cache holds no still-valid, SAN-identical
certificate for the subject, so `Sign` will mint a fresh one. -/
def cacheMiss (now : Int) (subjectID : String) (sans : List String) (s : CAState) : Bool :=
  match cached s subjectID with
  | some l => !(decide (now < l.notAfter) && decide (l.sans = sans))
  | none => true

/-- Modelled from the spec: the events acting on the CA/Issuer state — a
rotation check, a leaf issuance request, and the trust-bundle shrink that
drops a previous CA only after the overlap window and confirmed leaf
replacement (spec 3). -/
inductive CAEvent where
  | rotate
  | sign (subjectID : String) (sans : List String) (requestedValidity : Int)
  | shrinkBundle
deriving DecidableEq, Repr

/-- A previous CA still confirms an unreplaced leaf while some unexpired
leaf chains to it. -/
def neededBy (now : Int) (leaves : List LeafCertificate) (ca : ClusterCA) : Bool :=
  leaves.any (fun l => decide (now < l.notAfter) && decide (l.signingCAFingerprint = ca.fingerprint))

/-- One event applied to the CA/Issuer state at instant `now`. -/
def step (cfg : Config) (now : Int) (s : CAState) : CAEvent → CAState
  | .rotate => (RotateIfNeeded cfg now s).1
  | .sign subj sans v => (Sign cfg now subj sans v s).1
  | .shrinkBundle => { s with previous := s.previous.filter (neededBy now s.leaves) }

/-- A sequence of timestamped events applied in order. -/
def run (cfg : Config) (s : CAState) : List (Int × CAEvent) → CAState
  | [] => s
  | (t, e) :: rest => run cfg (step cfg t s e) rest

/-- Timestamps of a trace never decrease, starting from `t0`. -/
def timesMono : Int → List (Int × CAEvent) → Bool
  | _, [] => true
  | t0, (t, _) :: rest => decide (t0 ≤ t) && timesMono t rest

/-- The instant of the last event of a trace (`t0` for the empty trace). -/
def lastTime : Int → List (Int × CAEvent) → Int
  | t0, [] => t0
  | _, (t, _) :: rest => lastTime t rest

/-- Modelled from the spec: the invariant of spec 3 — every leaf
certificate unexpired at `now` chains to an entry currently in the trust
bundle. -/
def chainsInv (now : Int) (s : CAState) : Prop :=
  ∀ l ∈ s.leaves, now < l.notAfter →
    l.signingCAFingerprint ∈ (trustBundle s).map ClusterCA.fingerprint

/-- Serial freshness: every issued serial is below the counter. -/
def serialsBelow (s : CAState) : Prop :=
  ∀ l ∈ s.leaves, l.serial < s.nextSerial

instance (now : Int) (s : CAState) : Decidable (chainsInv now s) := by
  unfold chainsInv; infer_instance

instance (s : CAState) : Decidable (serialsBelow s) := by
  unfold serialsBelow; infer_instance

end core

namespace core

/-- Modelled from the spec: the result of `RequestAndStage` (spec 4.3):
material staged atomically, a fatal trust violation when the received
chain does not validate against the known trust bundle, or the distinct
"trust material unavailable" fatal status once past the deadline. -/
inductive StageResult where
  | staged (cert : LeafCertificate)
  | trustViolation
  | trustMaterialUnavailable
deriving DecidableEq, Repr

/-- Modelled from the spec: `RequestAndStage(subjectID)` (spec 4.3): polls
the trust store for the subject's leaf certificate with bounded
exponential backoff, validates the received chain against the currently
known trust bundle, and past the configurable deadline fails fatally with
the distinct "trust material unavailable" status instead of retrying
indefinitely.  `avail t` is what the trust store offers the subject at
instant `t`; `fuel` bounds the retries of one run. -/
def RequestAndStage (deadline : Int) (bundle : List ClusterCA)
    (avail : Int → Option LeafCertificate) :
    Int → Int → Int → Nat → StageResult
  | _, _, _, 0 => .trustMaterialUnavailable
  | now, backoff, maxBackoff, fuel+1 =>
    if deadline < now then .trustMaterialUnavailable
    else
      match avail now with
      | some cert =>
          if cert.signingCAFingerprint ∈ bundle.map ClusterCA.fingerprint then
            .staged cert
          else .trustViolation
      | none =>
          RequestAndStage deadline bundle avail (now + backoff)
            (min (backoff * 2) maxBackoff) maxBackoff fuel

/-- Modelled from the spec: the member process is started only once
complete trust material has been staged (spec 4.3). -/
def startsMember : StageResult → Bool
  | .staged _ => true
  | .trustViolation => false
  | .trustMaterialUnavailable => false

/-- Modelled from the spec: the Process Supervisor states (spec 4.4). -/
inductive SupState where
  | Starting
  | Running
  | ReloadPending
  | Restarting
  | Stopped
  | Failed
deriving DecidableEq, Repr

/-- Modelled from the spec: staged material is either of a hot-reloadable
kind or requires a full process restart (spec 4.4). -/
inductive MaterialKind where
  | hotReloadable
  | restartRequired
deriving DecidableEq, Repr

/-- Modelled from the spec: RestartLease (spec 3): granted by the Cluster
Coordinator, consumed at most once by a Supervisor to authorize one
disruptive restart. -/
structure RestartLease where
  ownerInstanceID : String
  expiry : Int
deriving DecidableEq, Repr

/-- Modelled from the spec: the Supervisor and its SupervisedProcess
record (spec 3, 4.4): the lifecycle state, the instance identity, the hash
of the material the process currently runs with, the staged material
delivered by the watcher, the held restart lease if any, and whether the
"restart blocked" status is being reported. -/
structure Supervisor where
  state : SupState
  instanceID : String
  currentConfigHash : Nat
  stagedHash : Nat
  stagedKind : MaterialKind
  lease : Option RestartLease
  restartBlocked : Bool
deriving DecidableEq, Repr

/-- A held lease is valid for this instance at `now` when it names this
instance and has not expired. -/
def leaseValid (sup : Supervisor) (now : Int) : Bool :=
  match sup.lease with
  | some l => decide (l.ownerInstanceID = sup.instanceID) && decide (now < l.expiry)
  | none => false

/-- Modelled from the spec: the events interleaved at the Supervisor
(spec 4.4, 5): the first successful health probe, a staged-material change
delivered by the watcher, a lease grant from the Cluster Coordinator, the
lifecycle loop attempting to apply pending material at an instant,
completion of a relaunch, and process failure beyond the retry budget. -/
inductive SupEvent where
  | healthOk
  | stagedChange (hash : Nat) (kind : MaterialKind)
  | leaseGrant (l : RestartLease)
  | applyPending (now : Int)
  | relaunched
  | processFailed
deriving DecidableEq, Repr

/-- Modelled from the spec: one step of the Supervisor state machine
(spec 4.4): `Starting → Running` on the first health probe; a staged hash
differing from the current one sends `Running → ReloadPending`;
hot-reloadable material is applied without restart; restart-required
material sends `ReloadPending → Restarting` only under a valid lease,
which is consumed, and otherwise reports "restart blocked" and keeps
waiting; a relaunch completes `Restarting → Running`; failure beyond the
retry budget is terminal without external intervention. -/
def supStep (sup : Supervisor) : SupEvent → Supervisor
  | .healthOk =>
      if sup.state = .Starting then { sup with state := .Running } else sup
  | .stagedChange h k =>
      let sup1 := { sup with stagedHash := h, stagedKind := k }
      if sup1.state = .Running ∧ h ≠ sup1.currentConfigHash then
        { sup1 with state := .ReloadPending }
      else sup1
  | .leaseGrant l =>
      if l.ownerInstanceID = sup.instanceID then { sup with lease := some l } else sup
  | .applyPending now =>
      if sup.state = .ReloadPending then
        match sup.stagedKind with
        | .hotReloadable =>
            { sup with state := .Running, currentConfigHash := sup.stagedHash,
                       restartBlocked := false }
        | .restartRequired =>
            if leaseValid sup now then
              { sup with state := .Restarting, lease := none, restartBlocked := false }
            else { sup with restartBlocked := true }
      else sup
  | .relaunched =>
      if sup.state = .Restarting then
        { sup with state := .Running, currentConfigHash := sup.stagedHash,
                   restartBlocked := false }
      else sup
  | .processFailed => { sup with state := .Failed }

/-- A sequence of Supervisor events applied in order. -/
def runSup (sup : Supervisor) : List SupEvent → Supervisor
  | [] => sup
  | e :: rest => runSup (supStep sup e) rest

/-- A sample well-formed configuration used to witness the theorems on
concrete inputs. -/
def wcfg : Config :=
  { caValidity := 10, rotateBefore := 1, maxLeafValidity := 5,
    restartGrace := 2, backoffMin := 1, backoffMax := 4 }

/-- A sample bootstrap CA/Issuer state: one current CA, nothing previous,
no leaf issued yet. -/
def wstate : CAState :=
  { current := { fingerprint := 0, notBefore := 90, notAfter := 100 },
    previous := [], nextSerial := 0, leaves := [] }

/-- A sample event trace: an issuance, a due rotation, a bundle shrink. -/
def wtrace : List (Int × CAEvent) :=
  [(95, .sign "es-0" ["es-0.default.svc", "10.0.0.5"] 5),
   (99, .rotate),
   (99, .shrinkBundle)]

/-- A sample configuration whose maximum leaf validity (10) is below its
CA validity (20). -/
def cexCfg : Config :=
  { caValidity := 20, rotateBefore := 1, maxLeafValidity := 10,
    restartGrace := 2, backoffMin := 1, backoffMax := 4 }

/-- The state after signing once for "es-0" from the bootstrap state at
instant 0 with requested validity 5 (the minted leaf lives on [0, 5)). -/
def wsigned : CAState :=
  (Sign cexCfg 0 "es-0" ["es-0.default.svc"] 5 wstate).1

end core

/-- Helper: `find?` over an append whose left part all fails the predicate
and whose first right element satisfies it returns that element. -/
theorem pod.find_first_append {A : Type} (p : A → Bool) (l₁ : List A) (c : A) (l₂ : List A)
    (hc : p c = true) (h₁ : ∀ d ∈ l₁, p d = false) :
    (l₁ ++ c :: l₂).find? p = some c := by
  induction l₁ with
  | nil => rw [List.nil_append, List.find?_cons_of_pos _ hc]
  | cons d l ih =>
    rw [List.cons_append, List.find?_cons_of_neg]
    · exact ih (fun x hx => h₁ x (List.mem_cons_of_mem d hx))
    · simp [h₁ d (List.mem_cons_self d l)]

/-- Helper: the Boolean container test of `resourceRequirements` holds
exactly when the container is the kibana one with a non-empty limits or
requests list. -/
theorem pod.kibanaResTest_eq (c : Container) :
    (c.name = KibanaContainerName
        && (0 < c.resources.limits.length || 0 < c.resources.requests.length))
      = true ↔
    (c.name = KibanaContainerName ∧
      (c.resources.limits ≠ [] ∨ c.resources.requests ≠ [])) := by
  simp [Bool.and_eq_true, Bool.or_eq_true, decide_eq_true_eq,
    Nat.pos_iff_ne_zero, List.length_eq_zero]

/-- Claim C10: `resourceRequirements` returns the resources of the first
container named `KibanaContainerName` whose limits or requests map is
non-empty; when no container of the template qualifies (in particular when
a kibana container has both maps empty) it returns `DefaultResources`, the
1Gi memory limit. -/
theorem pod.C10_resourceRequirements_spec (pt : PodTemplateSpec) :
    ((∀ c ∈ pt.spec.containers,
        ¬(c.name = KibanaContainerName ∧
          (c.resources.limits ≠ [] ∨ c.resources.requests ≠ []))) →
      resourceRequirements pt = DefaultResources ∧
        DefaultResources = { limits := [("memory", "1Gi")], requests := [] }) ∧
    (∀ l₁ c l₂, pt.spec.containers = l₁ ++ c :: l₂ →
      c.name = KibanaContainerName →
      (c.resources.limits ≠ [] ∨ c.resources.requests ≠ []) →
      (∀ d ∈ l₁, ¬(d.name = KibanaContainerName ∧
          (d.resources.limits ≠ [] ∨ d.resources.requests ≠ []))) →
      resourceRequirements pt = c.resources) := by
  constructor
  · intro hall
    refine ⟨?_, rfl⟩
    have hnone : pt.spec.containers.find? (fun c =>
        c.name = KibanaContainerName
          && (0 < c.resources.limits.length || 0 < c.resources.requests.length)) = none := by
      rw [List.find?_eq_none]
      intro c hc
      rw [Bool.not_eq_true, Bool.eq_false_iff]
      intro htrue
      exact hall c hc ((kibanaResTest_eq c).mp htrue)
    simp [resourceRequirements, hnone]
  · intro l₁ c l₂ heq hname hres hskip
    have hfind := find_first_append (fun c =>
        c.name = KibanaContainerName
          && (0 < c.resources.limits.length || 0 < c.resources.requests.length))
      l₁ c l₂ ((kibanaResTest_eq c).mpr ⟨hname, hres⟩)
      (fun d hd => by
        rw [Bool.eq_false_iff]
        intro htrue
        exact hskip d hd ((kibanaResTest_eq d).mp htrue))
    rw [resourceRequirements, heq, hfind]

/-- Claim C6: startup configuration validation fails with a fatal
ConfigError if and only if some configured duration is zero or negative or
the rotate-before threshold is at or above the CA validity duration;
otherwise it accepts the configuration. -/
theorem core.C6_validateConfig_iff (c : Config) :
    ((∃ e, validateConfig c = .error e) ↔
      (c.caValidity ≤ 0 ∨ c.rotateBefore ≤ 0 ∨ c.maxLeafValidity ≤ 0 ∨
       c.restartGrace ≤ 0 ∨ c.backoffMin ≤ 0 ∨ c.backoffMax ≤ 0 ∨
       c.caValidity ≤ c.rotateBefore)) ∧
    ((validateConfig c = .ok ()) ↔
      ¬(c.caValidity ≤ 0 ∨ c.rotateBefore ≤ 0 ∨ c.maxLeafValidity ≤ 0 ∨
        c.restartGrace ≤ 0 ∨ c.backoffMin ≤ 0 ∨ c.backoffMax ≤ 0 ∨
        c.caValidity ≤ c.rotateBefore)) := by
  unfold validateConfig
  split_ifs <;> simp_all

/-- Helper: a rotation that just committed is not due again at the same
instant when the rotate-before threshold is below the CA validity. -/
theorem core.rotate_not_due (cfg : Config) (now : Int) (s : CAState)
    (hv : cfg.rotateBefore < cfg.caValidity)
    (hdue : rotationDue cfg now s = true) :
    rotationDue cfg now (RotateIfNeeded cfg now s).1 = false := by
  have hdue' : s.current.notAfter ≤ now + cfg.rotateBefore := by
    simpa [rotationDue] using hdue
  simp only [RotateIfNeeded, rotationDue, hdue', if_true, decide_eq_true_eq,
    decide_eq_false_iff_not, not_le]
  omega

/-- Helper: gated invocations from a state where rotation is not due all
no-op and observe the unchanged state. -/
theorem core.rotateCalls_not_due (cfg : Config) (now : Int) (s : CAState) (n : Nat)
    (h : rotationDue cfg now s = false) :
    rotateCalls cfg now s n = List.replicate n (s, false) := by
  induction n with
  | zero => rfl
  | succ k ih =>
      have hno : RotateIfNeeded cfg now s = (s, false) := by
        simp [RotateIfNeeded, h]
      simp only [rotateCalls, hno, ih, List.replicate]

/-- Claim C2: when rotation is due and the configuration is well formed,
N+1 gated invocations of `RotateIfNeeded` at the same due instant commit
exactly one rotation, and every call (the N losers included) observes the
identical resulting CA state. -/
theorem core.C2_rotateIfNeeded_once (cfg : Config) (now : Int) (s : CAState) (n : Nat)
    (hv : cfg.rotateBefore < cfg.caValidity)
    (hdue : rotationDue cfg now s = true) :
    (rotateCalls cfg now s (n + 1)).countP (fun r => r.2) = 1 ∧
    ∀ r ∈ rotateCalls cfg now s (n + 1), r.1 = (RotateIfNeeded cfg now s).1 := by
  have hdue' : s.current.notAfter ≤ now + cfg.rotateBefore := by
    simpa [rotationDue] using hdue
  have hcommit : (RotateIfNeeded cfg now s).2 = true := by
    simp [RotateIfNeeded, rotationDue, hdue']
  have hstruct : rotateCalls cfg now s (n + 1)
      = RotateIfNeeded cfg now s
          :: List.replicate n ((RotateIfNeeded cfg now s).1, false) := by
    simp only [rotateCalls]
    rw [rotateCalls_not_due cfg now _ n (rotate_not_due cfg now s hv hdue)]
  rw [hstruct]
  constructor
  · rw [List.countP_cons]
    simp only [hcommit, if_true]
    have : (List.replicate n ((RotateIfNeeded cfg now s).1, false)).countP
        (fun r => r.2) = 0 := by
      rw [List.countP_eq_zero]
      intro a ha
      rw [List.eq_of_mem_replicate ha]
      simp
    omega
  · intro r hr
    rcases List.mem_cons.mp hr with rfl | hr
    · rfl
    · rw [List.eq_of_mem_replicate hr]

/-- Claim C5 counterexample: from the state holding the still-valid leaf
for "es-0" issued at instant 0 with validity 5, calling `Sign` at instant
1 with requested validity 7 returns the cached certificate, whose validity
duration is 5 and not min(7, maxLeafValidity) = 7: the idempotent cache
path ignores the new requested validity. -/
theorem core.C5_counterexample :
    ¬(((Sign cexCfg 1 "es-0" ["es-0.default.svc"] 7 wsigned).2).notAfter
        - ((Sign cexCfg 1 "es-0" ["es-0.default.svc"] 7 wsigned).2).notBefore
      = min 7 cexCfg.maxLeafValidity) := by decide

/-- Claim C5 (amended): whenever `Sign` mints — the Issuer holds no
still-valid SAN-identical cached certificate for the subject — the
returned leaf certificate's validity duration is exactly
min(requestedValidity, maxLeafValidity); with the configured maximum
itself below the CA validity, that duration is at most the maximum, which
is shorter than the CA validity. -/
theorem core.C5_sign_validity (cfg : Config) (now : Int) (subj : String)
    (sans : List String) (v : Int) (s : CAState)
    (hmiss : cacheMiss now subj sans s = true)
    (hcap : cfg.maxLeafValidity < cfg.caValidity) :
    ((Sign cfg now subj sans v s).2).notAfter
        - ((Sign cfg now subj sans v s).2).notBefore = min v cfg.maxLeafValidity ∧
    ((Sign cfg now subj sans v s).2).notAfter
        - ((Sign cfg now subj sans v s).2).notBefore ≤ cfg.maxLeafValidity ∧
    cfg.maxLeafValidity < cfg.caValidity := by
  have hmint : Sign cfg now subj sans v s = mintLeaf cfg now subj sans v s := by
    unfold Sign
    unfold cacheMiss at hmiss
    cases hc : cached s subj with
    | none => rfl
    | some l =>
        rw [hc] at hmiss
        simp only [Bool.not_eq_eq_eq_not, Bool.not_true, Bool.and_eq_false_imp,
          decide_eq_true_eq, decide_eq_false_iff_not] at hmiss
        have hcond : ¬(now < l.notAfter ∧ l.sans = sans) := fun hcond =>
          hmiss hcond.1 hcond.2
        simp [hcond]
  rw [hmint]
  refine ⟨by simp [mintLeaf], ?_, hcap⟩
  simp only [mintLeaf, add_sub_cancel_left]
  exact min_le_right v cfg.maxLeafValidity

/-- Claim C5 witness data and hypotheses are discharged at a fresh subject
against the sample state: `Sign` mints a certificate of duration
min(7, 10) = 7, at most the configured maximum 10, itself below the CA
validity 20. -/
theorem core.C5_sign_validity_witness :
    ((Sign cexCfg 50 "es-1" ["es-1.default.svc"] 7 wsigned).2).notAfter
        - ((Sign cexCfg 50 "es-1" ["es-1.default.svc"] 7 wsigned).2).notBefore
          = min 7 cexCfg.maxLeafValidity ∧
    ((Sign cexCfg 50 "es-1" ["es-1.default.svc"] 7 wsigned).2).notAfter
        - ((Sign cexCfg 50 "es-1" ["es-1.default.svc"] 7 wsigned).2).notBefore
          ≤ cexCfg.maxLeafValidity ∧
    cexCfg.maxLeafValidity < cexCfg.caValidity :=
  core.C5_sign_validity cexCfg 50 "es-1" ["es-1.default.svc"] 7 wsigned
    (by decide) (by decide)

/-- Claim C7: when the trust store offers no leaf certificate for the
subject at any instant up to the deadline, `RequestAndStage` ends in the
distinct "trust material unavailable" fatal status rather than retrying
indefinitely, the member process is not started, and in general the member
process starts only on a staged result carrying complete material. -/
theorem core.C7_deadline_unavailable (deadline : Int) (bundle : List ClusterCA)
    (avail : Int → Option LeafCertificate) (now backoff maxBackoff : Int) (fuel : Nat)
    (hnone : ∀ t, t ≤ deadline → avail t = none) :
    RequestAndStage deadline bundle avail now backoff maxBackoff fuel
        = StageResult.trustMaterialUnavailable ∧
    startsMember (RequestAndStage deadline bundle avail now backoff maxBackoff fuel)
        = false ∧
    ∀ r, startsMember r = true → ∃ cert, r = StageResult.staged cert := by
  have hmain : ∀ (fuel : Nat) (now backoff : Int),
      RequestAndStage deadline bundle avail now backoff maxBackoff fuel
        = StageResult.trustMaterialUnavailable := by
    intro f
    induction f with
    | zero => intro now backoff; rfl
    | succ k ih =>
        intro now backoff
        rw [RequestAndStage]
        by_cases hlate : deadline < now
        · rw [if_pos hlate]
        · rw [if_neg hlate, hnone now (le_of_not_lt hlate)]
          exact ih (now + backoff) (min (backoff * 2) maxBackoff)
  refine ⟨hmain fuel now backoff, ?_, ?_⟩
  · rw [hmain fuel now backoff]; rfl
  · intro r hr
    cases r with
    | staged cert => exact ⟨cert, rfl⟩
    | trustViolation => exact absurd hr (by simp [startsMember])
    | trustMaterialUnavailable => exact absurd hr (by simp [startsMember])

/-- Claim C7 witness: with an empty trust store, a deadline of 5 and fuel
for ten retries from instant 0 with backoff 1 capped at 4, the run reports
trust material unavailable and the member process does not start. -/
theorem core.C7_deadline_unavailable_witness :
    RequestAndStage 5 [] (fun _ => none) 0 1 4 10
        = StageResult.trustMaterialUnavailable ∧
    startsMember (RequestAndStage 5 [] (fun _ => none) 0 1 4 10) = false ∧
    ∀ r, startsMember r = true → ∃ cert, r = StageResult.staged cert :=
  core.C7_deadline_unavailable 5 [] (fun _ => none) 0 1 4 10 (fun _ _ => rfl)

/-- Helper: after any `Sign` call the Issuer cache for the subject holds
exactly the certificate that call returned. -/
theorem core.Sign_cached_self (cfg : Config) (now : Int) (subj : String)
    (sans : List String) (v : Int) (s : CAState) :
    cached (Sign cfg now subj sans v s).1 subj
      = some (Sign cfg now subj sans v s).2 := by
  cases hc : cached s subj with
  | some l =>
      by_cases hcond : now < l.notAfter ∧ l.sans = sans
      · simp only [Sign, hc]
        rw [if_pos hcond]
        exact hc
      · simp only [Sign, hc]
        rw [if_neg hcond]
        simp [mintLeaf, cached]
  | none =>
      simp only [Sign, hc]
      simp [mintLeaf, cached]

/-- Helper: the certificate `Sign` returns carries exactly the requested
SAN set. -/
theorem core.Sign_sans_eq (cfg : Config) (now : Int) (subj : String)
    (sans : List String) (v : Int) (s : CAState) :
    ((Sign cfg now subj sans v s).2).sans = sans := by
  cases hc : cached s subj with
  | some l =>
      by_cases hcond : now < l.notAfter ∧ l.sans = sans
      · simp only [Sign, hc]
        rw [if_pos hcond]
        exact hcond.2
      · simp only [Sign, hc]
        rw [if_neg hcond]
        simp [mintLeaf]
  | none =>
      simp only [Sign, hc]
      simp [mintLeaf]

/-- Helper: under serial freshness, the certificate `Sign` returns has a
serial strictly below the resulting state's serial counter. -/
theorem core.Sign_serial_lt (cfg : Config) (now : Int) (subj : String)
    (sans : List String) (v : Int) (s : CAState) (hser : serialsBelow s) :
    ((Sign cfg now subj sans v s).2).serial
      < ((Sign cfg now subj sans v s).1).nextSerial := by
  cases hc : cached s subj with
  | some l =>
      by_cases hcond : now < l.notAfter ∧ l.sans = sans
      · simp only [Sign, hc]
        rw [if_pos hcond]
        unfold cached at hc
        exact hser l (List.mem_of_find?_eq_some hc)
      · simp only [Sign, hc]
        rw [if_neg hcond]
        simp [mintLeaf]
  | none =>
      simp only [Sign, hc]
      simp [mintLeaf]

/-- Claim C3: under serial freshness, re-requesting with the identical SAN
set before the first returned certificate's expiry returns the identical
certificate and leaves the state unchanged (identical serial included),
while a changed SAN set for the same subject yields a certificate with a
different serial. -/
theorem core.C3_sign_idempotent_serials (cfg : Config) (now now2 : Int)
    (subj : String) (sans sans2 : List String) (v v2 : Int) (s : CAState)
    (hser : serialsBelow s) :
    (now2 < ((Sign cfg now subj sans v s).2).notAfter →
      Sign cfg now2 subj sans v (Sign cfg now subj sans v s).1
        = ((Sign cfg now subj sans v s).1, (Sign cfg now subj sans v s).2)) ∧
    (sans2 ≠ sans →
      ((Sign cfg now2 subj sans2 v2 (Sign cfg now subj sans v s).1).2).serial
        ≠ ((Sign cfg now subj sans v s).2).serial) := by
  have hcache := Sign_cached_self cfg now subj sans v s
  have hsans := Sign_sans_eq cfg now subj sans v s
  have hlt := Sign_serial_lt cfg now subj sans v s hser
  rcases hSc : Sign cfg now subj sans v s with ⟨s1, c1⟩
  rw [hSc] at hcache hsans hlt
  dsimp only at hcache hsans hlt ⊢
  constructor
  · intro hexp
    simp only [Sign, hcache]
    rw [if_pos ⟨hexp, hsans⟩]
  · intro hdiff
    have hcond : ¬(now2 < c1.notAfter ∧ c1.sans = sans2) := by
      rw [hsans]
      exact fun h => hdiff h.2.symm
    simp only [Sign, hcache]
    rw [if_neg hcond]
    simp only [mintLeaf]
    omega

/-- Claim C3 witness: from the bootstrap state (trivially serial-fresh),
signing for "es-0" at instant 95, re-requesting at instant 96 with the
identical SAN set returns the identical certificate, and requesting with a
changed SAN set returns a different serial. -/
theorem core.C3_witness :
    (96 < ((Sign wcfg 95 "es-0" ["es-0.default.svc"] 3 wstate).2).notAfter →
      Sign wcfg 96 "es-0" ["es-0.default.svc"] 3
          (Sign wcfg 95 "es-0" ["es-0.default.svc"] 3 wstate).1
        = ((Sign wcfg 95 "es-0" ["es-0.default.svc"] 3 wstate).1,
           (Sign wcfg 95 "es-0" ["es-0.default.svc"] 3 wstate).2)) ∧
    (["10.0.0.5"] ≠ ["es-0.default.svc"] →
      ((Sign wcfg 96 "es-0" ["10.0.0.5"] 3
          (Sign wcfg 95 "es-0" ["es-0.default.svc"] 3 wstate).1).2).serial
        ≠ ((Sign wcfg 95 "es-0" ["es-0.default.svc"] 3 wstate).2).serial) :=
  core.C3_sign_idempotent_serials wcfg 95 96 "es-0" ["es-0.default.svc"]
    ["10.0.0.5"] 3 3 wstate (by decide)

/-- Helper: a single Supervisor step enters `Restarting` only from an
`applyPending` event carried out under a lease valid for this instance at
that instant (or when the machine already was in `Restarting`). -/
theorem core.supStep_restart_needs_lease (sup : Supervisor) (e : SupEvent)
    (h : (supStep sup e).state = SupState.Restarting) :
    sup.state = SupState.Restarting ∨
      ∃ now, e = SupEvent.applyPending now ∧ leaseValid sup now = true := by
  cases e with
  | healthOk =>
      left
      simp only [supStep] at h
      split at h
      · simp at h
      · exact h
  | stagedChange hash kind =>
      left
      simp only [supStep] at h
      split at h
      · simp at h
      · exact h
  | leaseGrant l =>
      left
      simp only [supStep] at h
      split at h <;> exact h
  | applyPending now =>
      simp only [supStep] at h
      split at h
      · cases hk : sup.stagedKind with
        | hotReloadable => rw [hk] at h; simp at h
        | restartRequired =>
            rw [hk] at h
            by_cases hl : leaseValid sup now = true
            · exact Or.inr ⟨now, rfl, hl⟩
            · rw [if_neg hl] at h
              simp_all
      · left; exact h
  | relaunched =>
      left
      simp only [supStep] at h
      split at h
      · simp at h
      · exact h
  | processFailed =>
      simp only [supStep] at h
      simp at h

/-- Helper: a restart-required pending change without a valid lease makes
`applyPending` report "restart blocked" and change nothing else. -/
theorem core.supStep_blocked (sup : Supervisor) (now : Int)
    (hst : sup.state = SupState.ReloadPending)
    (hkind : sup.stagedKind = MaterialKind.restartRequired)
    (hlease : leaseValid sup now = false) :
    supStep sup (SupEvent.applyPending now) = { sup with restartBlocked := true } := by
  simp only [supStep, hst, if_true, hkind]
  rw [if_neg (by simp [hlease])]

/-- Claim C4: along every execution of the Supervisor (any interleaving of
health probes, staged-material changes, lease grants and lifecycle steps),
the machine enters the disruptive `Restarting` state only through an
`applyPending` step holding a valid (own-instance, unexpired) restart
lease; with a restart-required change pending and no valid lease it
reports "restart blocked" and keeps waiting in `ReloadPending`; a pending
hot-reloadable change is applied by reload, returning to `Running` with no
restart and no lease consumed. -/
theorem core.C4_supervisor_restart_gated (s0 : Supervisor) (es : List SupEvent)
    (e : SupEvent) :
    ((supStep (runSup s0 es) e).state = SupState.Restarting →
      (runSup s0 es).state = SupState.Restarting ∨
        ∃ now, e = SupEvent.applyPending now ∧
          leaseValid (runSup s0 es) now = true) ∧
    (∀ now, (runSup s0 es).state = SupState.ReloadPending →
      (runSup s0 es).stagedKind = MaterialKind.restartRequired →
      leaseValid (runSup s0 es) now = false →
      (supStep (runSup s0 es) (SupEvent.applyPending now)).state
          = SupState.ReloadPending ∧
        (supStep (runSup s0 es) (SupEvent.applyPending now)).restartBlocked = true) ∧
    (∀ now, (runSup s0 es).state = SupState.ReloadPending →
      (runSup s0 es).stagedKind = MaterialKind.hotReloadable →
      (supStep (runSup s0 es) (SupEvent.applyPending now)).state = SupState.Running ∧
        (supStep (runSup s0 es) (SupEvent.applyPending now)).lease
          = (runSup s0 es).lease) := by
  refine ⟨supStep_restart_needs_lease (runSup s0 es) e, ?_, ?_⟩
  · intro now hst hkind hlease
    rw [supStep_blocked (runSup s0 es) now hst hkind hlease]
    exact ⟨hst, rfl⟩
  · intro now hst hkind
    simp [supStep, hst, hkind]

/-- Helper: the chaining invariant is preserved as time advances (fewer
leaves are unexpired later). -/
theorem core.chainsInv_mono (t t' : Int) (s : CAState)
    (h : chainsInv t s) (htt : t ≤ t') : chainsInv t' s :=
  fun l hl hexp => h l hl (lt_of_le_of_lt htt hexp)

/-- Helper: minting a leaf preserves the chaining invariant — the fresh
certificate chains to the current CA, which heads the trust bundle. -/
theorem core.chainsInv_mint (cfg : Config) (t : Int) (subj : String)
    (sans : List String) (v : Int) (s : CAState) (h : chainsInv t s) :
    chainsInv t (mintLeaf cfg t subj sans v s).1 := by
  intro l hl hexp
  simp only [mintLeaf, List.mem_cons] at hl
  simp only [mintLeaf, trustBundle, List.map_cons, List.mem_cons]
  rcases hl with rfl | hl
  · left; rfl
  · have := h l hl hexp
    simpa [trustBundle] using this

/-- Helper: every event of the CA/Issuer state machine preserves the
chaining invariant at the instant it happens: rotation only extends the
bundle, issuance chains to the current CA, and the bundle shrink keeps
every previous CA some unexpired leaf still chains to. -/
theorem core.chainsInv_step (cfg : Config) (t : Int) (s : CAState) (e : CAEvent)
    (h : chainsInv t s) : chainsInv t (step cfg t s e) := by
  cases e with
  | rotate =>
      by_cases hdue : rotationDue cfg t s = true
      · intro l hl hexp
        simp only [step, RotateIfNeeded, hdue, if_true] at hl ⊢
        have := h l hl hexp
        simp only [trustBundle, List.map_cons, List.mem_cons] at this ⊢
        tauto
      · rw [Bool.not_eq_true] at hdue
        intro l hl hexp
        simp only [step, RotateIfNeeded, hdue, Bool.false_eq_true, if_false] at hl ⊢
        exact h l hl hexp
  | sign subj sans v =>
      cases hc : cached s subj with
      | some lc =>
          by_cases hcond : t < lc.notAfter ∧ lc.sans = sans
          · intro l hl hexp
            simp only [step, Sign, hc] at hl ⊢
            rw [if_pos hcond] at hl ⊢
            exact h l hl hexp
          · have : step cfg t s (CAEvent.sign subj sans v)
                = (mintLeaf cfg t subj sans v s).1 := by
              simp only [step, Sign, hc]
              rw [if_neg hcond]
            rw [this]
            exact chainsInv_mint cfg t subj sans v s h
      | none =>
          have : step cfg t s (CAEvent.sign subj sans v)
              = (mintLeaf cfg t subj sans v s).1 := by
            simp only [step, Sign, hc]
          rw [this]
          exact chainsInv_mint cfg t subj sans v s h
  | shrinkBundle =>
      intro l hl hexp
      simp only [step] at hl ⊢
      have hmem := h l hl hexp
      simp only [trustBundle, List.map_cons, List.mem_cons, List.mem_map] at hmem ⊢
      rcases hmem with hcur | ⟨ca, hca, hfp⟩
      · left; exact hcur
      · right
        refine ⟨ca, List.mem_filter.mpr ⟨hca, ?_⟩, hfp⟩
        simp only [neededBy, List.any_eq_true, Bool.and_eq_true, decide_eq_true_eq]
        exact ⟨l, hl, hexp, by rw [hfp]⟩

/-- Helper: running a trace whose timestamps never decrease preserves the
chaining invariant through to the last event's instant. -/
theorem core.chainsInv_run (cfg : Config) (trace : List (Int × CAEvent)) :
    ∀ (t0 : Int) (s : CAState), timesMono t0 trace = true → chainsInv t0 s →
      chainsInv (lastTime t0 trace) (run cfg s trace) := by
  induction trace with
  | nil => intro t0 s _ h; exact h
  | cons p rest ih =>
      obtain ⟨t, e⟩ := p
      intro t0 s hmono hinv
      simp only [timesMono, Bool.and_eq_true, decide_eq_true_eq] at hmono
      obtain ⟨h01, hmono'⟩ := hmono
      exact ih t (step cfg t s e) hmono'
        (chainsInv_step cfg t s e (chainsInv_mono t0 t s hinv h01))

/-- Claim C1: along every sequence of rotations, issuances and bundle
shrinks with nondecreasing timestamps, starting from a state satisfying
the chaining invariant, every leaf certificate unexpired at any instant at
or after the last event chains to an entry currently in the trust
bundle. -/
theorem core.C1_unexpired_leaves_chain (cfg : Config) (t0 T : Int) (s0 : CAState)
    (trace : List (Int × CAEvent))
    (hmono : timesMono t0 trace = true)
    (hlast : lastTime t0 trace ≤ T)
    (hinit : chainsInv t0 s0) :
    chainsInv T (run cfg s0 trace) :=
  chainsInv_mono (lastTime t0 trace) T (run cfg s0 trace)
    (chainsInv_run cfg trace t0 s0 hmono hinit) hlast

/-- Claim C1 witness: from the bootstrap state, issuing for "es-0" at 95,
rotating at 99 (when due) and shrinking the bundle at 99, the certificate
still unexpired at instant 99 chains to the retiring CA kept in the trust
bundle. -/
theorem core.C1_witness :
    timesMono 0 wtrace = true ∧ chainsInv 0 wstate ∧
      chainsInv 99 (run wcfg wstate wtrace) :=
  ⟨by decide, by decide,
    core.C1_unexpired_leaves_chain wcfg 0 99 wstate wtrace
      (by decide) (by decide) (by decide)⟩

/-- Claim C2 witness: three gated invocations at the due instant 99 from
the bootstrap state (validity 10, rotate-before 1) commit exactly one
rotation, and every call observes the identical resulting CA state. -/
theorem core.C2_witness :
    (rotateCalls wcfg 99 wstate 3).countP (fun r => r.2) = 1 ∧
    ∀ r ∈ rotateCalls wcfg 99 wstate 3,
      r.1 = (RotateIfNeeded wcfg 99 wstate).1 :=
  core.C2_rotateIfNeeded_once wcfg 99 wstate 2 (by decide) (by decide)
